import Mathlib

/-!
# Verification of the Calculator equation-editor model

Shallow embedding of `src/js/models/model.js` (and the error taxonomy of
`src/js/models/errors.js`): the incremental equation editor, its undo log,
the pre-evaluation checks of `calculate`, and the mantissa-rounding decision
of `formatValue`.

Modelling conventions:
* JS tokens are Lean `String`s; the equation buffer is a `List String`
  (JS array order, `push` appends at the end).
* The module-level mutable variables (`equation`, `calculated`,
  `lastCalculationResult`, `undoLog`) become the fields of `CalcState`.
  In addition `dollar2` models the ambient legacy `RegExp.$2` static that
  `addDigit`, `addDecimal`, `deleteLast` and `changeSign` read after a
  `test`/`match` call: a successful match of a pattern with at least two
  capture groups sets it to the second group, a successful match of a
  pattern with fewer groups clears it to `""`, and a failed match leaves
  it unchanged.
* The evaluator proper (`math.evaluate`, line 751) is an external library;
  it is abstracted as an oracle `String → EvalOutcome` passed to
  `calculate`.  Everything `calculate` does before and after the
  evaluation (left-operand substitution, validity check, division-by-zero
  scan, error classification) is embedded from the source.
* JS `equation[i] || null` turns both a missing element and the empty
  string into `null`; `jsLast` mirrors that with `Option String`.
-/

namespace Calculator

/-- Token list for `OPERATORS` (model.js line 41). -/
def OPERATORS : List String := ["+", "-", "*", "/", "^"]

/-- Token list for `MODIFIERS` (model.js line 42). -/
def MODIFIERS : List String := ["^2", "^3", "^-1", "!"]

/-- Token list for `FUNCTIONS` (model.js line 44). -/
def FUNCTIONS : List String :=
  ["sqrt(", "sin(", "cos(", "tan(", "asin(", "acos(", "atan(",
   "log(", "log10(", "pow(E,", "pow(2,", "E"]

/-- JS `String.prototype.endsWith` / `slice(-1)` comparisons, on the
character list (kernel-computable). -/
def strEndsWith (s suffix : String) : Bool :=
  suffix.toList.isSuffixOf s.toList

/-- JS `String.prototype.startsWith` / anchored-prefix regex tests, on
the character list (kernel-computable). -/
def strStartsWith (s pre : String) : Bool :=
  pre.toList.isPrefixOf s.toList

/-- `MAX_DIGITS` (model.js line 62). -/
def MAX_DIGITS : Nat := 9

/-- `isOperator` (model.js line 235): list membership in `OPERATORS`. -/
def isOperator (v : String) : Bool := OPERATORS.contains v

/-- `isModifier` (model.js line 247): list membership in `MODIFIERS`. -/
def isModifier (v : String) : Bool := MODIFIERS.contains v

/-- `isFunction` (model.js line 259): list membership in `FUNCTIONS`. -/
def isFunction (v : String) : Bool := FUNCTIONS.contains v

/-- `isBracket` (model.js line 297). -/
def isBracket (v : String) : Bool := v = ")" || v = "("

/-- `isOpenBracket` (model.js line 301). -/
def isOpenBracket (v : String) : Bool := v = "("

/-- `isCloseBracket` (model.js line 305). -/
def isCloseBracket (v : String) : Bool := v = ")"

/-- Character class of the regex `/^[\d\.E∞-]+$/` used by `isNumeric`
(model.js line 828): a decimal digit, `.`, `E`, `∞` or `-`. -/
def isNumericChar (c : Char) : Bool :=
  c.isDigit || c = '.' || c = 'E' || c = '∞' || c = '-'

/-- `isNumeric` (model.js line 827): full-string match of `/^[\d\.E∞-]+$/`
(at least one character, all from the class). -/
def isNumeric (s : String) : Bool :=
  !s.isEmpty && s.toList.all isNumericChar

/-- Count of `\d` characters of a token, as computed by
`last.replace(new RegExp('[^\\d]', 'g'), '').length` (model.js line 350). -/
def digitCount (s : String) : Nat :=
  (s.toList.filter Char.isDigit).length

/-- `checkNegativeFormat` (model.js line 271): wraps the component in
parentheses when it matches `/^\-d+/` — note the pattern matches a minus
followed by the literal letter `d`, so it never fires on real tokens. -/
def checkNegativeFormat (c : String) : String :=
  if strStartsWith c "-d" then "(" ++ c ++ ")" else c

/-- Characters preceding the first `')'` of a list, when a `')'` exists:
the text matched by the lazy group `(.*?)` before the `(\))` group. -/
def beforeClose : List Char → Option (List Char)
  | [] => none
  | ')' :: _ => some []
  | c :: cs => (beforeClose cs).map (c :: ·)

/-- The second capture group of the first match of `(\()\-(.*?)(\))`
(model.js line 286) in the given character list, if the regex matches:
scan for a `'('` directly followed by `'-'` such that a `')'` occurs
later, and take the (lazy, hence shortest) text before that `')'`. -/
def negMatch : List Char → Option (List Char)
  | '(' :: '-' :: rest =>
    match beforeClose rest with
    | some inner => some inner
    | none => negMatch ('-' :: rest)
  | _ :: cs => negMatch cs
  | [] => none

/-- `isNegativeComponent`'s match on a token (model.js line 285), returning
`RegExp.$2` (the digits inside the `(-...)` wrapper) on success. -/
def negMatch? (s : String) : Option String :=
  (negMatch s.toList).map (fun l => String.mk l)

/-- `isNegativeComponent` (model.js line 285). -/
def isNegativeComponent (s : String) : Bool := (negMatch? s).isSome

/-- The editor's mutable module state (model.js lines 98-121), plus the
ambient `RegExp.$2` static (see module docstring). -/
structure CalcState where
  equation : List String
  calculated : Bool
  lastCalculationResult : String
  undoLog : List (List String)
  dollar2 : String
deriving Repr, DecidableEq

/-- `equation[equation.length - 1] || null` (model.js line 167): the last
element, with the JS-falsy empty string collapsed to `null`. -/
def jsLast (eq : List String) : Option String :=
  match eq.getLast? with
  | some t => if t = "" then none else some t
  | none => none

/-- `equation[equation.length - 2] || null` (model.js line 187). -/
def jsPenultimate (eq : List String) : Option String :=
  if eq.length ≥ 2 then
    match eq.get? (eq.length - 2) with
    | some t => if t = "" then none else some t
    | none => none
  else none

/-- JS truthiness of a component that may be `null` or a string: `null`
and `""` are falsy. -/
def truthy : Option String → Bool
  | none => false
  | some t => t ≠ ""

/-- The cap enforcement of `updateUndoLog` (model.js lines 929-931):
once the log exceeds 300 entries, keep only
`undoLog.slice(100, undoLog.length)`. -/
def trimLog (log1 : List (List String)) : List (List String) :=
  if log1.length > 300 then log1.drop 100 else log1

/-- `updateUndoLog` (model.js lines 924-932): push a copy of the equation
unless it equals the top of the log (`arraysEqual`), then enforce the
cap. -/
def updateUndoLog (log : List (List String)) (eq : List String) :
    List (List String) :=
  trimLog (if log.getLast? = some eq then log else log ++ [eq])

/-- Record the current equation in the undo log (the `updateUndoLog()`
call sites inside the mutating primitives). -/
def pushLog (s : CalcState) : CalcState :=
  { s with undoLog := updateUndoLog s.undoLog s.equation }

/-- `addComponent` (model.js line 221): push the value, clear the
calculated flag, record in the undo log. -/
def addComponent (v : String) (s : CalcState) : CalcState :=
  pushLog { s with equation := s.equation ++ [v], calculated := false }

/-- `replaceLastComponent` (model.js line 204): overwrite the last token
and clear the calculated flag when the buffer is non-empty; the undo log
is recorded in either case. -/
def replaceLastComponent (v : String) (s : CalcState) : CalcState :=
  if s.equation.isEmpty then pushLog s
  else pushLog { s with equation := s.equation.dropLast ++ [v],
                        calculated := false }

/-- `resetEquation` (model.js line 140). -/
def resetEquation (s : CalcState) : CalcState :=
  pushLog { s with equation := [], calculated := false }

/-- `undo` (model.js lines 903-915): pop the top snapshot into the
equation; if it equals the pre-pop equation and the log is still
non-empty, pop once more. -/
def undo (s : CalcState) : CalcState :=
  match s.undoLog.getLast? with
  | none => s
  | some popped =>
    if popped = s.equation then
      match s.undoLog.dropLast.getLast? with
      | some p2 =>
        { s with equation := p2, undoLog := s.undoLog.dropLast.dropLast }
      | none => { s with equation := popped, undoLog := s.undoLog.dropLast }
    else { s with equation := popped, undoLog := s.undoLog.dropLast }

/-- `getLastComponent(true)` (model.js line 166): fetch the last component
(`""` collapsing to `null`); when it ends in the decimal separator, strip
the separator and write the correction back into the buffer.  The
`last.replace('.)', ')')` on line 171 discards its result and is a no-op. -/
def getLastCorrected (s : CalcState) : Option String × CalcState :=
  match jsLast s.equation with
  | none => (none, s)
  | some l =>
    if strEndsWith l "." then
      let l' := l.dropRight 1
      (some l', { s with equation := s.equation.dropLast ++ [l'] })
    else (some l, s)

/-- `getPenultimateComponent(true)` (model.js line 186): fetch the
second-to-last component; when it ends in the decimal separator the
corrected value is written to `equation[equation.length - 1]` — the LAST
slot, as in the source (line 192), not the penultimate one. -/
def getPenultimateCorrected (s : CalcState) : Option String × CalcState :=
  match jsPenultimate s.equation with
  | none => (none, s)
  | some p =>
    if strEndsWith p "." then
      let p' := p.dropRight 1
      (some p', { s with equation := s.equation.dropLast ++ [p'] })
    else (some p, s)

/-- The merged token `addDigit` builds on lines 339-349: the rebuilt
negative wrapper (reading `RegExp.$2`, passed as `d2`), the
leading-zero replacement, or plain concatenation. -/
def addDigitMergedToken (digit l d2 : String) : String :=
  if isNegativeComponent l ∨ l = "-" then
    "(-" ++ (if d2 = "0" then "" else d2) ++ digit ++ ")"
  else if l = "0" then digit
  else l ++ digit

/-- `addDigit` (model.js lines 317-357).  The `(-<n>)` rebuild on
line 341 reads the ambient `RegExp.$2` (`dollar2`): fresh when
`isNegativeComponent(last)` just succeeded (its value is then
`negMatch? l`), stale when `last === '-'` (its value is then whatever the
`checkNegativeFormat` call left, i.e. the incoming ambient value, as its
pattern never matches real tokens); `d2` below is that read, computed
up front since nothing reads the ambient statics in between.  The
digit-count check on line 350 also runs a group-less global replace,
which clears the statics whenever the built token has a non-digit. -/
def addDigit (digit : String) (s0 : CalcState) : Bool × CalcState :=
  let s := if s0.calculated then resetEquation s0 else s0
  match jsLast s.equation with
  | none => (true, addComponent digit s)
  | some l =>
    if (isOperator l ∨ isModifier l ∨ isBracket l ∨ isFunction l) ∧
        (l ≠ "-" ∨ s.equation.length > 1) then
      (true, addComponent digit s)
    else
      let d2 := (negMatch? l).getD
        (if strStartsWith l "-d" then "" else s.dollar2)
      let s2 := replaceLastComponent (checkNegativeFormat l)
        { s with dollar2 := d2 }
      let newLast := addDigitMergedToken digit l d2
      let s3 := { s2 with
        dollar2 := if newLast.toList.all Char.isDigit then d2 else "" }
      if digitCount newLast ≤ MAX_DIGITS then
        (true, replaceLastComponent newLast s3)
      else (false, pushLog s3)

/-- `addOperator` (model.js lines 366-413). -/
def addOperator (op : String) (s0 : CalcState) : CalcState :=
  let s := if s0.calculated then
      addComponent s0.lastCalculationResult (resetEquation s0)
    else s0
  let (last?, sa) := getLastCorrected s
  let sb := (getPenultimateCorrected sa).2
  let pen? := (getPenultimateCorrected sa).1
  if ¬ truthy last? ∧ op ≠ "-" then sb
  else if last? = some "-" ∧ sb.equation.length = 1 then sb
  else if last? = some "-" ∧ (pen?.elim false fun p => isFunction p) then sb
  else
    let l := last?.getD ""
    let s1 := replaceLastComponent (checkNegativeFormat l)
      { sb with dollar2 := if strStartsWith l "-d" then "" else sb.dollar2 }
    if isOperator l then replaceLastComponent op s1
    else if isFunction l then
      if op = "-" then addComponent op s1 else s1
    else if strEndsWith l "E" then
      let s2 := { s1 with dollar2 := "" }
      if op = "-" then replaceLastComponent (l ++ "-") s2 else s2
    else addComponent op s1

/-- `addModifier` (model.js lines 422-446). -/
def addModifier (modifier : String) (s0 : CalcState) : CalcState :=
  let s := if s0.calculated then
      addComponent s0.lastCalculationResult (resetEquation s0)
    else s0
  let (last?, sa) := getLastCorrected s
  let sb := (getPenultimateCorrected sa).2
  if ¬ truthy last? then sb
  else
    let l := last?.getD ""
    let sc := { sb with dollar2 := if isNumeric l then "" else sb.dollar2 }
    if isNumeric l ∨ isModifier l ∨ isCloseBracket l then
      let s1 := replaceLastComponent (checkNegativeFormat l)
        { sc with dollar2 := if strStartsWith l "-d" then "" else sc.dollar2 }
      if strEndsWith l "E" then { s1 with dollar2 := "" }
      else addComponent modifier s1
    else sc

/-- `addFunction` (model.js lines 456-475). -/
def addFunction (func : String) (s0 : CalcState) : CalcState :=
  let s := if s0.calculated then resetEquation s0 else s0
  let (last?, sa) := getLastCorrected s
  let l := last?.getD ""
  if ¬ truthy last? ∨ isOperator l ∨ isOpenBracket l ∨ isFunction l then
    addComponent func sa
  else addComponent func (addOperator "*" sa)

/-- `addDecimal` (model.js lines 483-503); note it has no
calculated-flag reset. -/
def addDecimal (s : CalcState) : CalcState :=
  match jsLast s.equation with
  | none => addComponent "0." s
  | some l =>
    if isOperator l ∨ isModifier l then addComponent "0." s
    else if isFunction l then addComponent "0." (addComponent "*" s)
    else
      let s1 := replaceLastComponent (checkNegativeFormat l)
        { s with dollar2 := if strStartsWith l "-d" then "" else s.dollar2 }
      if l.toList.contains '.' then s1
      else
        match negMatch? l with
        | some inner =>
          replaceLastComponent ("(-" ++ inner ++ ".)") { s1 with dollar2 := inner }
        | none => replaceLastComponent (l ++ ".") s1

/-- Strip a trailing match of `EXPONENTIAL_REGEXP` = `/E[\-\+]?$/i`
(model.js line 71). -/
def stripExpSuffix (s : String) : String :=
  if strEndsWith s "E-" ∨ strEndsWith s "E+" ∨ strEndsWith s "e-" ∨ strEndsWith s "e+" then
    s.dropRight 2
  else if strEndsWith s "E" ∨ strEndsWith s "e" then s.dropRight 1
  else s

/-- `removeLastChar` (model.js line 512). -/
def removeLastChar (str : String) : String := stripExpSuffix (str.dropRight 1)

/-- The test `last.match(/^\-[0-9]$/)` of model.js line 555. -/
def isMinusDigit (l : String) : Bool :=
  match l.toList with
  | ['-', c] => c.isDigit
  | _ => false

/-- `deleteLast` (model.js lines 523-566); the calculated-flag reset at
its top is commented out in the source.  `equation.pop()` mutates the
buffer directly (without clearing the calculated flag); the final
`updateUndoLog()` on line 565 runs in every non-empty case. -/
def deleteLast (s0 : CalcState) : CalcState :=
  match jsLast s0.equation with
  | none => s0
  | some l =>
    let s1 := replaceLastComponent (checkNegativeFormat l)
      { s0 with dollar2 := if strStartsWith l "-d" then "" else s0.dollar2 }
    let s2 :=
      match negMatch? l with
      | some inner =>
        let sA := { s1 with dollar2 := inner }
        if inner.length = 1 then { sA with equation := sA.equation.dropLast }
        else replaceLastComponent ("(-" ++ removeLastChar inner ++ ")") sA
      | none =>
        if l.length = 1 ∨ isMinusDigit l then
          { s1 with equation := s1.equation.dropLast }
        else if isFunction l ∨ isModifier l then
          { s1 with equation := s1.equation.dropLast }
        else replaceLastComponent (removeLastChar l) s1
    pushLog s2

/-- `changeSign` (model.js lines 672-698). -/
def changeSign (s0 : CalcState) : Bool × CalcState :=
  let s := if s0.calculated then
      addComponent s0.lastCalculationResult (resetEquation s0)
    else s0
  match jsLast s.equation with
  | none => (false, s)
  | some l =>
    if isOperator l ∨ l = "0" then (false, s)
    else
      let l1 := if strStartsWith l "-" then "(" ++ l ++ ")" else l
      match negMatch? l1 with
      | some inner => (true, replaceLastComponent inner { s with dollar2 := inner })
      | none => (true, replaceLastComponent ("(-" ++ l1 ++ ")") s)

/-- `countComponent` via `findComponent` (model.js lines 784-803). -/
def countComponent (eq : List String) (val : String) : Nat :=
  (eq.filter (· = val)).length

/-- `countFunctions` (model.js lines 812-817). -/
def countFunctions (eq : List String) : Nat :=
  (eq.filter (fun t => FUNCTIONS.contains t)).length

/-- `addBracket` (model.js lines 837-884): choose the sign string, then
add it one character at a time (`addComponent(sign[i])`), so `"*("`
records two undo-log snapshots. -/
def addBracket (s : CalcState) : CalcState :=
  let last? := jsLast s.equation
  let countOpened := countComponent s.equation "(" + countFunctions s.equation
  let countClosed := countComponent s.equation ")"
  let l := last?.getD ""
  let sign : String :=
    if s.equation.isEmpty then "("
    else if isBracket l then
      if l = ")" ∧ countOpened > countClosed then ")" else "("
    else if isNumeric l ∧ countOpened = countClosed then "*("
    else if isOperator l then "("
    else if l ≠ ")" ∧ l ≠ "(" ∧ countOpened > countClosed then ")"
    else "("
  let s' := { s with dollar2 :=
    if ¬ s.equation.isEmpty ∧ ¬ isBracket l ∧ isNumeric l then "" else s.dollar2 }
  sign.toList.foldl (fun st c => addComponent (String.mk [c]) st) s'

/-- The model state right after `init()` (model.js line 940): fresh
module variables, then `resetEquation()`. -/
def initState : CalcState := resetEquation ⟨[], false, "", [], ""⟩

/-- `isValidEquation` (model.js lines 575-579), with its state effect
(the correction done by `getLastComponent(true)`).  On an empty buffer
`getLastComponent` yields `null`; `isOperator(null)` is `false`, so
`null.match(/E-?$/)` is evaluated and raises a `TypeError` — modelled as
`none`. -/
def isValidEquationS (s : CalcState) : Option Bool × CalcState :=
  let (last?, s1) := getLastCorrected s
  match last? with
  | none => (none, s1)
  | some l => (some (!isOperator l && !(strEndsWith l "E" || strEndsWith l "E-")), s1)

/-- `replaceLeftOperand` (model.js lines 588-608). -/
def replaceLeftOperand (value : String) (s : CalcState) : CalcState :=
  let length := s.equation.length
  if length = 0 then s
  else
    let leftOperandSize :=
      if length = 1 then 0 else if length = 2 then 1 else length - 3
    pushLog { s with equation := (s.equation.drop leftOperandSize).set 0 value,
                     calculated := false }

/-- `parseFloat` on a run of `[0-9.]` characters, tested for equality
with `0` (model.js line 724): the parsed prefix is `digits* [. digits*]`;
the result is `NaN` (hence not `0`) when that prefix has no digit, and
`0` exactly when all its digits are `'0'`. -/
def parseFloatIsZero (r : List Char) : Bool :=
  let intPart := r.takeWhile Char.isDigit
  let rest := r.drop intPart.length
  let fracPart := match rest with
    | '.' :: t => t.takeWhile Char.isDigit
    | _ => []
  (intPart ++ fracPart ≠ []) && (intPart ++ fracPart).all (· = '0')

/-- Scan for a match of `/\/ *(\(?\-?([0-9\.]+)\)?)/` whose number group
parses to zero (model.js lines 743-746): after each `'/'`, skip spaces,
an optional `'('` and an optional `'-'`, and take the maximal run of
digits and dots; a non-empty run parsing to zero makes
`checkDivisionByZero` throw. -/
def divThrow : List Char → Bool
  | [] => false
  | '/' :: rest =>
    let afterSp := rest.dropWhile (· = ' ')
    let afterParen := match afterSp with | '(' :: t => t | _ => afterSp
    let afterMinus := match afterParen with | '-' :: t => t | _ => afterParen
    let num := afterMinus.takeWhile (fun c => c.isDigit || c = '.')
    if num ≠ [] ∧ parseFloatIsZero num then true else divThrow rest
  | _ :: cs => divThrow cs

/-- `divThrow` on a joined equation string. -/
def divThrowsZero (s : String) : Bool := divThrow s.toList

/-- The error taxonomy of `src/js/models/errors.js`. -/
inductive CalcError where
  | invalidFormat
  | divisionByZero
  | calculation
  | infinity (positive : Bool)
deriving Repr, DecidableEq

/-- Outcome of the external evaluator `math.evaluate` (model.js
line 751) combined with the small-magnitude clamp and the formatting of
a finite result: an exception, a NaN, a signed infinity, or a formatted
value.  The evaluator operates on IEEE doubles and is abstracted as an
oracle. -/
inductive EvalOutcome where
  | err
  | nan
  | posInf
  | negInf
  | ok (formatted : String)
deriving Repr, DecidableEq

/-- What a call to `calculate` does: return a result string, raise one
of the `errors.js` error kinds, or fail with a raw `TypeError`
(`null.match` on an empty buffer). -/
inductive CalcResult where
  | ok (v : String)
  | error (e : CalcError)
  | crash
deriving Repr, DecidableEq

/-- `calculate` (model.js lines 707-774), with the evaluator abstracted
as `ev`.  The `try` block (lines 741-754) contains BOTH the
division-by-zero scan and the evaluation; its catch-all (line 755)
rethrows ANY exception — including the `DivisionByZeroError` thrown by
`checkDivisionByZero` — as `CalculationError`. -/
def calculate (ev : String → EvalOutcome) (s0 : CalcState) :
    CalcResult × CalcState :=
  let s := if s0.calculated then replaceLeftOperand s0.lastCalculationResult s0
    else s0
  let (valid?, s1) := isValidEquationS s
  match valid? with
  | none => (.crash, s1)
  | some false => (.error .invalidFormat, s1)
  | some true =>
    let s2 := { s1 with calculated := false }
    let evaluation := String.intercalate " " s2.equation
    let tryResult : Except CalcError EvalOutcome :=
      if divThrowsZero evaluation then .error .divisionByZero
      else match ev ("(" ++ evaluation ++ ")") with
        | .err => .error .calculation
        | o => .ok o
    match tryResult with
    | .error _ => (.error .calculation, s2)
    | .ok .err => (.error .calculation, s2)
    | .ok .nan => (.error .calculation, s2)
    | .ok .posInf => (.error (.infinity true), s2)
    | .ok .negInf => (.error (.infinity false), s2)
    | .ok (.ok f) =>
      (.ok f, { s2 with calculated := true, lastCalculationResult := f })

/-- `parseInt(str, 10)` on the first fractional characters
(model.js line 631): value of the leading digit run, `NaN` (`none`)
when there is none. -/
def parseIntPrefix (l : List Char) : Option Nat :=
  let ds := l.takeWhile Char.isDigit
  if ds = [] then none
  else some (ds.foldl (fun a c => a * 10 + (c.toNat - 48)) 0)

/-- The mantissa-rounding decision of `formatValue` (model.js
lines 624-637), as a function of `textValue = value.toString()`: the
value is incremented by 1 before `toFixed` exactly when
`textValue.indexOf('.') >= MAX_DIGITS` and the first two characters
after the dot parse to at least 95. -/
def mantissaRoundUp (textValue : String) : Bool :=
  match textValue.toList.findIdx? (· = '.') with
  | none => false
  | some dotIndex =>
    if dotIndex ≥ MAX_DIGITS then
      match parseIntPrefix ((textValue.toList.drop (dotIndex + 1)).take 2) with
      | some n => n ≥ 95
      | none => false
    else false

/-- Digit count of the integer part of a fixed-notation rendering
(sign and separators excluded) — the quantity the specification's
"integer-part digit count meets or exceeds the 9-digit budget" speaks
about. -/
def intPartDigitCount (textValue : String) : Nat :=
  ((textValue.toList.takeWhile (· ≠ '.')).filter Char.isDigit).length

/-- The ten digit keys the UI feeds into `addDigit` (spec §6:
`digit: one of "0".."9"`). -/
def DIGITS : List String :=
  ["0", "1", "2", "3", "4", "5", "6", "7", "8", "9"]

/-- A sequence of digit presses: iterate `addDigit`, keeping the state. -/
def applyDigits (ds : List String) (s : CalcState) : CalcState :=
  ds.foldl (fun st dg => (addDigit dg st).2) s

/-- The spec's numeric-literal token shape (§3) as far as digit merging
is concerned: digit characters with an optional decimal point, either
plain or wrapped in the parenthesized-negative form `(-<digits>)`. -/
def numericLiteralShape (l : String) : Prop :=
  (∀ c ∈ l.toList, c.isDigit = true ∨ c = '.') ∨
  (∃ inner : String, l = "(-" ++ inner ++ ")" ∧
    ∀ c ∈ inner.toList, c.isDigit = true ∨ c = '.')

/-- Reference description (independent of the operation plumbing) of the
dangling-decimal self-heal that `getLastComponent(true)` writes into the
buffer: strip one trailing `'.'` from the last token. -/
def correctDanglingDecimal (eq : List String) : List String :=
  match jsLast eq with
  | some l => if strEndsWith l "." then eq.dropLast ++ [l.dropRight 1] else eq
  | none => eq

/-! ## Theorems -/

/-- Auxiliary: dropping fewer elements than the length preserves the last
element. -/
theorem getLast?_drop_of_lt {α : Type} (l : List α) (n : Nat)
    (h : n < l.length) : (l.drop n).getLast? = l.getLast? := by
  conv_rhs => rw [← List.take_append_drop n l]
  rw [List.getLast?_append_of_ne_nil]
  intro hc
  have h2 := List.length_drop n l
  rw [hc] at h2
  simp at h2
  omega

/-- Claim C1 (amended): when the undo log's top snapshot equals the
current equation `E` — the invariant every recording mutation
re-establishes, though `undo` itself can break it by draining the log —
and a mutating operation then records exactly one new snapshot `E' ≠ E`
via `updateUndoLog`, the `undo` that follows restores the equation to `E`
(the double pop compensates for the operation's own snapshot, and the
300-entry trim cannot remove the restored snapshot). -/
theorem undo_restores_after_single_record
    (log : List (List String)) (E Eq' : List String) (c : Bool) (r d : String)
    (htop : log.getLast? = some E) (hne : Eq' ≠ E) :
    (undo ⟨Eq', c, r, updateUndoLog log Eq', d⟩).equation = E := by
  have hne' : log.getLast? ≠ some Eq' := by
    rw [htop]
    intro h
    exact hne (Option.some.inj h).symm
  have hpush : updateUndoLog log Eq' = trimLog (log ++ [Eq']) := by
    simp [updateUndoLog, hne']
  rw [hpush]
  by_cases hbig : (log ++ [Eq']).length > 300
  · have hlen : 100 ≤ log.length := by
      simp only [List.length_append, List.length_cons, List.length_nil] at hbig
      omega
    have h1 : trimLog (log ++ [Eq']) = log.drop 100 ++ [Eq'] := by
      unfold trimLog
      rw [if_pos hbig, List.drop_append_of_le_length hlen]
    rw [h1]
    have hlt : 100 < log.length := by
      simp only [List.length_append, List.length_cons, List.length_nil] at hbig
      omega
    simp [undo, List.getLast?_concat, List.dropLast_concat,
          getLast?_drop_of_lt log 100 hlt, htop]
  · have h1 : trimLog (log ++ [Eq']) = log ++ [Eq'] := by
      unfold trimLog
      rw [if_neg hbig]
    rw [h1]
    simp [undo, List.getLast?_concat, List.dropLast_concat, htop]

/-- Claim C1 (witness): the amended theorem applied to the single-record
mutation from equation `["5"]` to `["5", "+"]`. -/
theorem undo_restores_after_single_record_witness :
    ([["5"]] : List (List String)).getLast? = some ["5"] ∧
    (["5", "+"] : List String) ≠ ["5"] ∧
    (undo ⟨["5", "+"], false, "", updateUndoLog [["5"]] ["5", "+"], ""⟩).equation
      = ["5"] :=
  ⟨by decide, by decide,
    undo_restores_after_single_record [["5"]] ["5"] ["5", "+"] false "" ""
      (by decide) (by decide)⟩

/-- Claim C1 (counterexample): from the reachable state after `init()` and
`addDigit("5")` (equation `["5"]`), the single operation `addBracket()`
inserts the implicit-multiply sign `"*("` as TWO components, recording two
undo-log snapshots; the immediate `undo()` then lands on the intermediate
state `["5", "*"]`, not on the pre-operation equation `["5"]`. -/
theorem undo_after_addBracket_counterexample :
    (addDigit "5" initState).2.equation = ["5"] ∧
    (undo (addBracket (addDigit "5" initState).2)).equation = ["5", "*"] ∧
    (undo (addBracket (addDigit "5" initState).2)).equation ≠
      (addDigit "5" initState).2.equation := by
  decide

/-- Claim C7 (amended): the undo log never exceeds 300 snapshots after
`updateUndoLog`, and when a recorded snapshot makes the length reach 301
the log is trimmed by dropping its oldest 100 entries, retaining the most
recent 201 snapshots — not 200 as the in-source comment promises. -/
theorem updateUndoLog_cap (log : List (List String)) (eq : List String)
    (hlen : log.length ≤ 300) :
    (updateUndoLog log eq).length ≤ 300 ∧
    (log.length = 300 → log.getLast? ≠ some eq →
      updateUndoLog log eq = (log ++ [eq]).drop 100 ∧
      (updateUndoLog log eq).length = 201) := by
  constructor
  · unfold updateUndoLog trimLog
    by_cases h : log.getLast? = some eq
    · rw [if_pos h]
      by_cases h2 : log.length > 300
      · rw [if_pos h2]
        simp only [List.length_drop]
        omega
      · rw [if_neg h2]
        exact hlen
    · rw [if_neg h]
      by_cases h2 : (log ++ [eq]).length > 300
      · rw [if_pos h2]
        simp only [List.length_drop, List.length_append, List.length_cons,
          List.length_nil]
        omega
      · rw [if_neg h2]
        simp only [List.length_append, List.length_cons, List.length_nil,
          gt_iff_lt, not_lt] at h2 ⊢
        omega
  · intro h300 hne
    have hlen2 : (log ++ [eq]).length > 300 := by
      simp only [List.length_append, List.length_cons, List.length_nil]
      omega
    have heq : updateUndoLog log eq = (log ++ [eq]).drop 100 := by
      unfold updateUndoLog trimLog
      rw [if_neg hne, if_pos hlen2]
    refine ⟨heq, ?_⟩
    rw [heq]
    simp only [List.length_drop, List.length_append, List.length_cons,
      List.length_nil]
    omega

set_option maxRecDepth 2000 in
/-- Claim C7 (witness): the amended theorem applied to a full log of 300
distinct snapshots and a fresh equation. -/
theorem updateUndoLog_cap_witness :
    (updateUndoLog (List.replicate 300 [("a" : String)]) ["b"]).length ≤ 300 ∧
    (updateUndoLog (List.replicate 300 [("a" : String)]) ["b"]).length = 201 := by
  have h := updateUndoLog_cap (List.replicate 300 ["a"]) ["b"] (by decide)
  exact ⟨h.1, (h.2 (by decide) (by decide)).2⟩

set_option maxRecDepth 2000 in
/-- Claim C7 (counterexample): pushing onto a log of 300 snapshots leaves
201 entries, not the 200 the claim states. -/
theorem updateUndoLog_trim_counterexample :
    (updateUndoLog (List.replicate 300 [("a" : String)]) ["b"]).length = 201 ∧
    (updateUndoLog (List.replicate 300 [("a" : String)]) ["b"]).length ≠ 200 := by
  decide

/-- Claim C3 (code bug): on the equation `["4", "/", "0"]` the
division-by-zero scan fires, but the `DivisionByZeroError` thrown by
`checkDivisionByZero` is thrown inside the `try` block of `calculate`
(model.js lines 741-754), whose catch-all (line 755) rethrows it as
`CalculationError`: whatever the evaluator would do, `calculate` raises
`CalculationError`, not `DivisionByZeroError`. -/
theorem calculate_four_div_zero_raises_calculation_error :
    ∀ ev : String → EvalOutcome,
      (calculate ev ⟨["4", "/", "0"], false, "", [[]], ""⟩).1 =
        .error .calculation ∧
      (calculate ev ⟨["4", "/", "0"], false, "", [[]], ""⟩).1 ≠
        .error .divisionByZero := by
  intro ev
  have h1 : (calculate ev ⟨["4", "/", "0"], false, "", [[]], ""⟩).1 =
      .error .calculation := rfl
  refine ⟨h1, ?_⟩
  rw [h1]
  decide

/-- Claim C9: `calculate()` on an empty equation does not raise any of the
four error kinds: `getLastComponent` yields `null`, `isOperator(null)` is
`false`, and `null.match(/E-?$/)` in `isValidEquation` fails with a raw
`TypeError` (modelled as `.crash`), for either value of the calculated
flag and any evaluator. -/
theorem calculate_empty_equation_crashes :
    ∀ (ev : String → EvalOutcome) (c : Bool) (r d : String)
      (log : List (List String)),
      (calculate ev ⟨[], c, r, log, d⟩).1 = .crash ∧
      ∀ e : CalcError, (calculate ev ⟨[], c, r, log, d⟩).1 ≠ .error e := by
  intro ev c r d log
  have h1 : (calculate ev ⟨[], c, r, log, d⟩).1 = .crash := by
    cases c <;> rfl
  refine ⟨h1, fun e h => ?_⟩
  rw [h1] at h
  exact CalcResult.noConfusion h

/-- Claim C10: `addDigit` is not a function of the visible editor state
and its argument: two states that agree on the equation (`["-"]`), the
calculated flag, the last result and the undo log, but differ in the
ambient `RegExp.$2` left by prior regex activity, produce different
tokens — the pristine ambient state yields `"(-5)"`, a stale `"7"` yields
`"(-75)"`. -/
theorem addDigit_ambient_regexp_nondeterminism :
    (CalcState.mk ["-"] false "" [[]] "").equation =
      (CalcState.mk ["-"] false "" [[]] "7").equation ∧
    (CalcState.mk ["-"] false "" [[]] "").calculated =
      (CalcState.mk ["-"] false "" [[]] "7").calculated ∧
    (CalcState.mk ["-"] false "" [[]] "").lastCalculationResult =
      (CalcState.mk ["-"] false "" [[]] "7").lastCalculationResult ∧
    (CalcState.mk ["-"] false "" [[]] "").undoLog =
      (CalcState.mk ["-"] false "" [[]] "7").undoLog ∧
    (addDigit "5" (CalcState.mk ["-"] false "" [[]] "")).2.equation =
      ["(-5)"] ∧
    (addDigit "5" (CalcState.mk ["-"] false "" [[]] "7")).2.equation =
      ["(-75)"] ∧
    (addDigit "5" (CalcState.mk ["-"] false "" [[]] "")).2.equation ≠
      (addDigit "5" (CalcState.mk ["-"] false "" [[]] "7")).2.equation := by
  decide

/-- Auxiliary: the state component returned by `isValidEquationS` is the
input state with the dangling-decimal correction applied to its
equation. -/
theorem isValidEquationS_snd_equation (s : CalcState) :
    (isValidEquationS s).2.equation = correctDanglingDecimal s.equation := by
  unfold isValidEquationS getLastCorrected correctDanglingDecimal
  cases h : jsLast s.equation with
  | none => simp
  | some l =>
    by_cases hd : strEndsWith l "."
    · simp [hd]
    · simp [hd]

/-- Auxiliary: a `jsLast` hit is the last element of the buffer. -/
theorem jsLast_getLast? {eq : List String} {l : String}
    (h : jsLast eq = some l) : eq.getLast? = some l := by
  unfold jsLast at h
  cases hg : eq.getLast? with
  | none => rw [hg] at h; exact absurd h (by simp)
  | some t =>
    rw [hg] at h
    by_cases ht : t = ""
    · simp [ht] at h
    · simp only [if_neg ht, Option.some.injEq] at h
      rw [h]

/-- Auxiliary: a `jsLast` hit is non-empty. -/
theorem jsLast_ne_empty {eq : List String} {l : String}
    (h : jsLast eq = some l) : l ≠ "" := by
  unfold jsLast at h
  cases hg : eq.getLast? with
  | none => rw [hg] at h; exact absurd h (by simp)
  | some t =>
    rw [hg] at h
    by_cases ht : t = ""
    · simp [ht] at h
    · simp only [if_neg ht, Option.some.injEq] at h
      rw [← h]; exact ht

/-- Auxiliary: a `jsLast` hit belongs to the buffer. -/
theorem jsLast_mem {eq : List String} {l : String}
    (h : jsLast eq = some l) : l ∈ eq :=
  List.mem_of_mem_getLast? (Option.mem_def.mpr (jsLast_getLast? h))

/-- Auxiliary: a buffer with a `jsLast` hit splits as its front plus the
hit. -/
theorem jsLast_dropLast_concat {eq : List String} {l : String}
    (h : jsLast eq = some l) : eq.dropLast ++ [l] = eq :=
  List.dropLast_append_getLast? l (Option.mem_def.mpr (jsLast_getLast? h))

/-- Auxiliary: a buffer with a `jsLast` hit is non-empty. -/
theorem jsLast_not_isEmpty {eq : List String} {l : String}
    (h : jsLast eq = some l) : eq.isEmpty = false := by
  cases eq with
  | nil => simp [jsLast] at h
  | cons a t => rfl

/-- Auxiliary: a `jsPenultimate` hit belongs to the buffer. -/
theorem jsPenultimate_mem {eq : List String} {p : String}
    (h : jsPenultimate eq = some p) : p ∈ eq := by
  unfold jsPenultimate at h
  split_ifs at h with h2
  · cases hg : eq.get? (eq.length - 2) with
    | none => rw [hg] at h; exact absurd h (by simp)
    | some t =>
      rw [hg] at h
      by_cases ht : t = ""
      · simp [ht] at h
      · simp only [if_neg ht, Option.some.injEq] at h
        rw [← h]
        exact List.get?_mem hg

/-- Auxiliary: `getLastComponent(true)` on a buffer whose last token has
no dangling decimal returns the token and leaves the state unchanged. -/
theorem getLastCorrected_nodot {s : CalcState} {l : String}
    (h : jsLast s.equation = some l) (hd : strEndsWith l "." = false) :
    getLastCorrected s = (some l, s) := by
  unfold getLastCorrected
  rw [h]
  simp [hd]

/-- Auxiliary: `getPenultimateComponent(true)` on a buffer without
dangling decimals returns the penultimate token and leaves the state
unchanged. -/
theorem getPenultimateCorrected_nodot {s : CalcState}
    (hdot : ∀ t ∈ s.equation, strEndsWith t "." = false) :
    getPenultimateCorrected s = (jsPenultimate s.equation, s) := by
  unfold getPenultimateCorrected
  cases h : jsPenultimate s.equation with
  | none => rfl
  | some p =>
    have hp : p ∈ s.equation := jsPenultimate_mem h
    simp [hdot p hp]

/-- Auxiliary: tokens accepted by `addModifier` — numeric by the source's
regex, a modifier, or a close bracket — never match
`checkNegativeFormat`'s pattern `/^\-d+/`. -/
theorem accepted_token_no_minus_d {l : String}
    (h : isNumeric l = true ∨ isModifier l = true ∨ isCloseBracket l = true) :
    strStartsWith l "-d" = false := by
  rcases h with h | h | h
  · by_contra hq
    simp only [Bool.not_eq_false] at hq
    unfold strStartsWith at hq
    rw [List.isPrefixOf_iff_prefix] at hq
    obtain ⟨t, ht⟩ := hq
    have h2 := (Bool.and_eq_true _ _ |>.mp h).2
    rw [← ht] at h2
    simp only [List.all_append, Bool.and_eq_true] at h2
    exact absurd h2.1 (by decide)
  · have hm : l = "^2" ∨ l = "^3" ∨ l = "^-1" ∨ l = "!" := by
      simpa [isModifier, MODIFIERS] using h
    rcases hm with rfl | rfl | rfl | rfl <;> decide
  · have hm : l = ")" := by simpa [isCloseBracket] using h
    subst hm
    decide

/-- Claim C4 (amended): `calculate` never mutates the token sequence
except for (a) the left-operand substitution performed when the
calculated flag was set and (b) the dangling-decimal correction that the
validity check writes into the buffer; this holds on every path —
`EquationInvalidFormatError`, the swallowed division-by-zero throw,
`CalculationError`, `InfinityError`, the empty-buffer `TypeError` and
success alike. -/
theorem calculate_buffer_mutation (ev : String → EvalOutcome)
    (s : CalcState) :
    (calculate ev s).2.equation =
      correctDanglingDecimal
        ((if s.calculated then replaceLeftOperand s.lastCalculationResult s
          else s).equation) := by
  simp only [calculate]
  rcases hval : isValidEquationS
      (if s.calculated then replaceLeftOperand s.lastCalculationResult s
       else s) with ⟨v, s1⟩
  have hs1 : s1.equation =
      correctDanglingDecimal
        ((if s.calculated then replaceLeftOperand s.lastCalculationResult s
          else s).equation) := by
    rw [← isValidEquationS_snd_equation, hval]
  cases v with
  | none => exact hs1
  | some b =>
    cases b
    · exact hs1
    · rw [← hs1]
      by_cases hdiv : divThrowsZero (String.intercalate " " s1.equation) = true
      · rw [if_pos hdiv]
      · rw [if_neg hdiv]
        cases hev : ev ("(" ++ String.intercalate " " s1.equation ++ ")") <;> rfl

/-- Claim C4 (counterexample): the reachable state with equation
`["4", "/", "0."]` (a dangling decimal entered after the `0`) and a clear
calculated flag: `calculate` raises an error (the swallowed
division-by-zero, surfaced as `CalculationError`), yet the buffer after
the call is `["4", "/", "0"]` — mutated although no left-operand
substitution took place. -/
theorem calculate_error_mutation_counterexample :
    (calculate (fun _ => .err)
      ⟨["4", "/", "0."], false, "", [[]], ""⟩).1 = .error .calculation ∧
    (calculate (fun _ => .err)
      ⟨["4", "/", "0."], false, "", [[]], ""⟩).2.equation = ["4", "/", "0"] ∧
    (calculate (fun _ => .err)
      ⟨["4", "/", "0."], false, "", [[]], ""⟩).2.equation ≠
      ["4", "/", "0."] := by
  decide

/-- Claim C5 (amended): with the calculated flag clear and no token
carrying a dangling decimal separator, `addModifier` appends the modifier
exactly when the last token passes the source's `isNumeric` regex
`/^[\d\.E∞-]+$/` (which REJECTS the parenthesized-negative form
`"(-<digits>)"` and ACCEPTS a bare `"-"`), is a modifier, or is a close
bracket, and does not end in `E`; in every other such state the token
sequence is unchanged. -/
theorem addModifier_acceptance (s : CalcState) (m l : String)
    (hc : s.calculated = false)
    (hl : jsLast s.equation = some l)
    (hdot : ∀ t ∈ s.equation, strEndsWith t "." = false) :
    ((isNumeric l = true ∨ isModifier l = true ∨ isCloseBracket l = true) ∧
        strEndsWith l "E" = false →
      (addModifier m s).equation = s.equation ++ [m]) ∧
    (¬((isNumeric l = true ∨ isModifier l = true ∨ isCloseBracket l = true) ∧
        strEndsWith l "E" = false) →
      (addModifier m s).equation = s.equation) := by
  have hld := hdot l (jsLast_mem hl)
  have hgl : getLastCorrected s = (some l, s) := getLastCorrected_nodot hl hld
  have hgp : getPenultimateCorrected s = (jsPenultimate s.equation, s) :=
    getPenultimateCorrected_nodot hdot
  have hne : l ≠ "" := jsLast_ne_empty hl
  have htr : truthy (some l) = true := by simp [truthy, hne]
  have hsplit := jsLast_dropLast_concat hl
  have hnotempty := jsLast_not_isEmpty hl
  constructor
  · rintro ⟨hclass, hE⟩
    have hnd := accepted_token_no_minus_d hclass
    have hcnf : checkNegativeFormat l = l := by
      simp [checkNegativeFormat, hnd]
    simp only [addModifier, hc, Bool.false_eq_true, if_false, hgl, hgp,
      htr, not_true, Option.getD_some, if_pos hclass, hE,
      Bool.false_eq_true, if_false, hcnf, replaceLastComponent,
      hnotempty, addComponent, pushLog, hsplit]
  · intro hnot
    by_cases hclass : isNumeric l = true ∨ isModifier l = true ∨
        isCloseBracket l = true
    · have hE : strEndsWith l "E" = true := by
        by_contra hE'
        exact hnot ⟨hclass, by simpa using hE'⟩
      have hnd := accepted_token_no_minus_d hclass
      have hcnf : checkNegativeFormat l = l := by
        simp [checkNegativeFormat, hnd]
      simp only [addModifier, hc, Bool.false_eq_true, if_false, hgl, hgp,
        htr, not_true, Option.getD_some, if_pos hclass, hE, if_true,
        hcnf, replaceLastComponent, hnotempty, pushLog, hsplit]
    · simp only [addModifier, hc, Bool.false_eq_true, if_false, hgl, hgp,
        htr, not_true, Option.getD_some, if_neg hclass]

/-- Claim C5 (witness): the amended theorem applied to the accepted state
`["5"]` with modifier `"!"`. -/
theorem addModifier_acceptance_witness :
    (isNumeric "5" = true ∨ isModifier "5" = true ∨
      isCloseBracket "5" = true) ∧
    strEndsWith "5" "E" = false ∧
    (addModifier "!" ⟨["5"], false, "", [[]], ""⟩).equation = ["5", "!"] :=
  ⟨Or.inl (by decide), by decide,
    (addModifier_acceptance ⟨["5"], false, "", [[]], ""⟩ "!" "5" (by decide)
      (by decide) (by decide)).1 ⟨Or.inl (by decide), by decide⟩⟩

/-- Claim C5 (counterexample): the reachable state `["(-5)"]`
(`addDigit "5"` then `changeSign`) has a parenthesized-negative
numeric-literal as its last token, yet `addModifier` ignores the
modifier: the source's `isNumeric` regex rejects the wrapper's
parentheses. -/
theorem addModifier_wrapped_negative_counterexample :
    (addModifier "!" ⟨["(-5)"], false, "", [[]], ""⟩).equation = ["(-5)"] ∧
    (addModifier "!" ⟨["(-5)"], false, "", [[]], ""⟩).equation ≠
      ["(-5)", "!"] ∧
    (changeSign (addDigit "5" initState).2).2.equation = ["(-5)"] := by
  decide

/-- Auxiliary: a one-element buffer with a `jsLast` hit is exactly that
singleton. -/
theorem jsLast_singleton {eq : List String} {l : String}
    (h : jsLast eq = some l) (hlen : eq.length = 1) : eq = [l] := by
  cases eq with
  | nil => simp at hlen
  | cons a t =>
    cases t with
    | nil =>
      unfold jsLast at h
      have hg : ([a] : List String).getLast? = some a := rfl
      rw [hg] at h
      by_cases ha : a = ""
      · simp [ha] at h
      · simp only [if_neg ha, Option.some.injEq] at h
        rw [h]
    | cons b t2 => simp at hlen

/-- Claim C6 (amended): with the calculated flag clear and no token
carrying a dangling decimal separator, when the last token is an
operator, `addOperator(op)` replaces it with `op` — except in TWO cases
where the buffer is left unchanged: the equation is exactly `["-"]`, or
the last token is `"-"` sitting directly after a function-opener
(`sqrt(-` must not become `sqrt(*`). -/
theorem addOperator_replaces_last_operator (s : CalcState) (op l : String)
    (hc : s.calculated = false)
    (hl : jsLast s.equation = some l)
    (hop : isOperator l = true)
    (hdot : ∀ t ∈ s.equation, strEndsWith t "." = false) :
    ((s.equation = ["-"] ∨
        (l = "-" ∧ (jsPenultimate s.equation).elim false isFunction = true)) →
      (addOperator op s).equation = s.equation) ∧
    (¬(s.equation = ["-"] ∨
        (l = "-" ∧ (jsPenultimate s.equation).elim false isFunction = true)) →
      (addOperator op s).equation = s.equation.dropLast ++ [op]) := by
  have hops : l = "+" ∨ l = "-" ∨ l = "*" ∨ l = "/" ∨ l = "^" := by
    simpa [isOperator, OPERATORS] using hop
  have hcnf : checkNegativeFormat l = l := by
    rcases hops with rfl | rfl | rfl | rfl | rfl <;> decide
  have htr : truthy (some l) = true := by simp [truthy, jsLast_ne_empty hl]
  have hgl := getLastCorrected_nodot hl (hdot l (jsLast_mem hl))
  have hgp := getPenultimateCorrected_nodot hdot
  have hsplit := jsLast_dropLast_concat hl
  have hnotempty := jsLast_not_isEmpty hl
  have hcond1 : ¬(¬ truthy (some l) = true ∧ op ≠ "-") := by simp [htr]
  constructor
  · intro hexc
    rcases hexc with heq | ⟨hml, hpf⟩
    · have hl' : l = "-" := by
        rw [heq] at hl
        have : jsLast ["-"] = some "-" := by decide
        rw [this] at hl
        exact (Option.some.inj hl).symm
      have hcond2 : (some l : Option String) = some "-" ∧
          s.equation.length = 1 := ⟨by rw [hl'], by rw [heq]; rfl⟩
      simp only [addOperator, hc, Bool.false_eq_true, if_false, hgl, hgp,
        if_neg hcond1, if_pos hcond2]
    · have hcond2 : ¬((some l : Option String) = some "-" ∧
          s.equation.length = 1) := by
        rintro ⟨h1, h2⟩
        have heq := jsLast_singleton hl h2
        rw [heq] at hpf
        simp [jsPenultimate] at hpf
      have hcond3 : (some l : Option String) = some "-" ∧
          ((jsPenultimate s.equation).elim false fun p => isFunction p)
            = true := ⟨by rw [hml], hpf⟩
      simp only [addOperator, hc, Bool.false_eq_true, if_false, hgl, hgp,
        if_neg hcond1, if_neg hcond2, if_pos hcond3]
  · intro hnexc
    push_neg at hnexc
    obtain ⟨hne1, hne2⟩ := hnexc
    have hcond2 : ¬((some l : Option String) = some "-" ∧
        s.equation.length = 1) := by
      rintro ⟨h1, h2⟩
      exact hne1 ((Option.some.inj h1) ▸ jsLast_singleton hl h2)
    have hcond3 : ¬((some l : Option String) = some "-" ∧
        ((jsPenultimate s.equation).elim false fun p => isFunction p)
          = true) := by
      rintro ⟨h1, h2⟩
      exact hne2 (Option.some.inj h1) h2
    simp only [addOperator, hc, Bool.false_eq_true, if_false, hgl, hgp,
      if_neg hcond1, if_neg hcond2, if_neg hcond3, Option.getD_some,
      hcnf, replaceLastComponent, hnotempty, pushLog, hsplit, hop,
      if_true, eq_self_iff_true]

/-- Claim C6 (witness): the amended theorem applied to the state
`["5", "-"]`, where `addOperator("+")` replaces the trailing `"-"`. -/
theorem addOperator_replaces_witness :
    jsLast ["5", "-"] = some "-" ∧ isOperator "-" = true ∧
    (addOperator "+" ⟨["5", "-"], false, "", [[]], ""⟩).equation =
      ["5", "+"] :=
  ⟨by decide, by decide,
    (addOperator_replaces_last_operator ⟨["5", "-"], false, "", [[]], ""⟩
      "+" "-" (by decide) (by decide) (by decide) (by decide)).2 (by decide)⟩

/-- Claim C6 (counterexample): in the reachable state `["sqrt(", "-"]`
(`addFunction "sqrt("` then `addOperator "-"`), the last token is the
operator `"-"` and the equation is not the one-token `["-"]`, yet
`addOperator("+")` leaves the buffer unchanged instead of replacing. -/
theorem addOperator_function_minus_counterexample :
    (addOperator "+" ⟨["sqrt(", "-"], false, "", [[]], ""⟩).equation =
      ["sqrt(", "-"] ∧
    (addOperator "+" ⟨["sqrt(", "-"], false, "", [[]], ""⟩).equation ≠
      ["sqrt(", "+"] ∧
    (["sqrt(", "-"] : List String) ≠ ["-"] ∧
    (addOperator "-" (addFunction "sqrt(" initState)).equation =
      ["sqrt(", "-"] := by
  decide

/-- Auxiliary: wrapping a component in parentheses does not change its
digit count. -/
theorem digitCount_checkNegativeFormat (c : String) :
    digitCount (checkNegativeFormat c) = digitCount c := by
  unfold checkNegativeFormat
  split_ifs with h
  · unfold digitCount
    rw [show ("(" ++ c ++ ")").toList = ['('] ++ c.toList ++ [')'] from rfl]
    rw [List.filter_append, List.filter_append]
    simp
  · rfl

/-- Auxiliary: wrapping a component in parentheses does not change its
digit characters either. -/
theorem digits_checkNegativeFormat (c : String) :
    (checkNegativeFormat c).toList.filter Char.isDigit =
      c.toList.filter Char.isDigit := by
  unfold checkNegativeFormat
  split_ifs with h
  · rw [show ("(" ++ c ++ ")").toList = ['('] ++ c.toList ++ [')'] from rfl]
    rw [List.filter_append, List.filter_append]
    simp
  · rfl

/-- Auxiliary: digit counts add up over string concatenation. -/
theorem digitCount_append (a b : String) :
    digitCount (a ++ b) = digitCount a + digitCount b := by
  unfold digitCount
  rw [show (a ++ b).toList = a.toList ++ b.toList from rfl,
    List.filter_append, List.length_append]

/-- Auxiliary: `negMatch` finds nothing in a token without an open
parenthesis. -/
theorem negMatch_no_paren (cs : List Char) (h : ∀ c ∈ cs, ¬ c = '(') :
    negMatch cs = none := by
  induction cs with
  | nil => rfl
  | cons c cs ih =>
    have hc : ¬ c = '(' := h c (List.mem_cons_self _ _)
    have ih' := ih (fun y hy => h y (List.mem_cons_of_mem _ hy))
    rw [negMatch.eq_def]
    split
    · next rest heq =>
      cases heq
      exact absurd rfl hc
    · next x cs2 heq =>
      cases heq
      exact ih'
    · rfl

/-- Auxiliary: the lazy group stops at the first close paren. -/
theorem beforeClose_stops (a : List Char) (b : List Char)
    (ha : ∀ c ∈ a, ¬ c = ')') : beforeClose (a ++ ')' :: b) = some a := by
  induction a with
  | nil => rfl
  | cons c cs ih =>
    have hc : ¬ c = ')' := ha c (List.mem_cons_self _ _)
    have ih' := ih (fun y hy => ha y (List.mem_cons_of_mem _ hy))
    rw [List.cons_append, beforeClose.eq_def]
    split
    · next heq => exact absurd heq (by simp)
    · next heq =>
      cases heq
      exact absurd rfl hc
    · next x cs2 heq =>
      cases heq
      rw [ih']
      rfl

/-- Auxiliary: on a well-formed wrapper `(-<inner>)` whose inner text has
no close paren, the regex capture is exactly the inner text. -/
theorem negMatch?_wrapped (inner : String)
    (h : ∀ c ∈ inner.toList, ¬ c = ')') :
    negMatch? ("(-" ++ inner ++ ")") = some inner := by
  unfold negMatch?
  rw [show ("(-" ++ inner ++ ")").toList
      = '(' :: '-' :: (inner.toList ++ ')' :: []) from rfl]
  have hstep : negMatch ('(' :: '-' :: (inner.toList ++ ')' :: [])) =
      match beforeClose (inner.toList ++ ')' :: []) with
      | some i => some i
      | none => negMatch ('-' :: (inner.toList ++ ')' :: [])) := rfl
  rw [hstep, beforeClose_stops inner.toList [] h]
  rfl

/-- Auxiliary: each digit key is a single digit character. -/
theorem digitCount_of_mem_DIGITS {d : String} (hd : d ∈ DIGITS) :
    digitCount d = 1 := by
  fin_cases hd <;> decide

/-- Auxiliary: one `addDigit` keeps every token at or below the 9-digit
cap. -/
theorem addDigit_step_cap (d : String) (hd : d ∈ DIGITS) (s : CalcState)
    (hinv : ∀ t ∈ s.equation, digitCount t ≤ MAX_DIGITS) :
    ∀ t ∈ (addDigit d s).2.equation, digitCount t ≤ MAX_DIGITS := by
  have hd1 : digitCount d = 1 := digitCount_of_mem_DIGITS hd
  by_cases hcal : s.calculated = true
  · simp only [addDigit, hcal, if_true]
    have hjl : jsLast (resetEquation s).equation = none := by
      simp [resetEquation, jsLast, pushLog]
    rw [hjl]
    intro t ht
    simp only [addComponent, pushLog, resetEquation, List.nil_append] at ht
    simp only [List.mem_singleton] at ht
    subst ht
    rw [hd1]
    decide
  · have hcal' : s.calculated = false := by
      revert hcal
      cases s.calculated <;> simp
    simp only [addDigit, hcal', Bool.false_eq_true, if_false]
    cases hjl : jsLast s.equation with
    | none =>
      intro t ht
      simp only [addComponent, pushLog] at ht
      rcases List.mem_append.mp ht with h | h
      · exact hinv t h
      · simp only [List.mem_singleton] at h
        subst h
        rw [hd1]
        decide
    | some l =>
      dsimp only
      have hnotempty := jsLast_not_isEmpty hjl
      have hsplit := jsLast_dropLast_concat hjl
      have hlmem := jsLast_mem hjl
      by_cases hcond : (isOperator l = true ∨ isModifier l = true ∨
          isBracket l = true ∨ isFunction l = true) ∧
          (l ≠ "-" ∨ s.equation.length > 1)
      · rw [if_pos hcond]
        intro t ht
        simp only [addComponent, pushLog] at ht
        rcases List.mem_append.mp ht with h | h
        · exact hinv t h
        · simp only [List.mem_singleton] at h
          subst h
          rw [hd1]
          decide
      · rw [if_neg hcond]
        by_cases hacc : digitCount (addDigitMergedToken d l
            ((negMatch? l).getD
              (if strStartsWith l "-d" then "" else s.dollar2))) ≤
            MAX_DIGITS
        · rw [if_pos hacc]
          have hne2 : (s.equation.dropLast ++ [checkNegativeFormat l]).isEmpty
              = false := by
            cases h : s.equation.dropLast ++ [checkNegativeFormat l] with
            | nil => exact absurd h (by simp)
            | cons a t2 => rfl
          intro t ht
          simp only [replaceLastComponent, pushLog, hnotempty,
            Bool.false_eq_true, if_false, hne2,
            List.dropLast_concat] at ht
          rcases List.mem_append.mp ht with h | h
          · exact hinv t (List.mem_of_mem_dropLast h)
          · simp only [List.mem_singleton] at h
            subst h
            exact hacc
        · rw [if_neg hacc]
          intro t ht
          simp only [pushLog, replaceLastComponent, hnotempty,
            Bool.false_eq_true, if_false] at ht
          rcases List.mem_append.mp ht with h | h
          · exact hinv t (List.mem_of_mem_dropLast h)
          · simp only [List.mem_singleton] at h
            subst h
            rw [digitCount_checkNegativeFormat]
            exact hinv l hlmem

/-- Auxiliary: a failing `addDigit` leaves every token's digit characters
unchanged — its only buffer write re-writes the last token through
`checkNegativeFormat`, which at most adds parentheses around them. -/
theorem addDigit_false_digit_profile (d : String) (s : CalcState)
    (h : (addDigit d s).1 = false) :
    (addDigit d s).2.equation.map (fun t => t.toList.filter Char.isDigit) =
      s.equation.map (fun t => t.toList.filter Char.isDigit) := by
  by_cases hcal : s.calculated = true
  · exfalso
    simp only [addDigit, hcal, if_true] at h
    have hjl : jsLast (resetEquation s).equation = none := by
      simp [resetEquation, jsLast, pushLog]
    rw [hjl] at h
    simp at h
  · have hcal' : s.calculated = false := by
      revert hcal
      cases s.calculated <;> simp
    simp only [addDigit, hcal', Bool.false_eq_true, if_false] at h ⊢
    cases hjl : jsLast s.equation with
    | none =>
      rw [hjl] at h
      simp at h
    | some l =>
      rw [hjl] at h
      dsimp only at h ⊢
      have hnotempty := jsLast_not_isEmpty hjl
      have hsplit := jsLast_dropLast_concat hjl
      by_cases hcond : (isOperator l = true ∨ isModifier l = true ∨
          isBracket l = true ∨ isFunction l = true) ∧
          (l ≠ "-" ∨ s.equation.length > 1)
      · rw [if_pos hcond] at h
        simp at h
      · rw [if_neg hcond] at h ⊢
        by_cases hacc : digitCount (addDigitMergedToken d l
            ((negMatch? l).getD
              (if strStartsWith l "-d" then "" else s.dollar2))) ≤
            MAX_DIGITS
        · rw [if_pos hacc] at h
          simp at h
        · rw [if_neg hacc]
          simp only [pushLog, replaceLastComponent, hnotempty,
            Bool.false_eq_true, if_false]
          conv_rhs => rw [← hsplit]
          rw [List.map_append, List.map_append]
          simp only [List.map_cons, List.map_nil]
          exact congrArg (fun x => List.map
            (fun t => t.toList.filter Char.isDigit) s.equation.dropLast ++ [x])
            (digits_checkNegativeFormat l)

/-- Auxiliary: a whole sequence of digit presses preserves the 9-digit
cap. -/
theorem applyDigits_cap : ∀ (ds : List String) (s : CalcState),
    (∀ x ∈ ds, x ∈ DIGITS) →
    (∀ t ∈ s.equation, digitCount t ≤ MAX_DIGITS) →
    ∀ t ∈ (applyDigits ds s).equation, digitCount t ≤ MAX_DIGITS := by
  intro ds
  induction ds with
  | nil => exact fun s _ hinv => hinv
  | cons d ds ih =>
    intro s hds hinv
    exact ih ((addDigit d s).2)
      (fun x hx => hds x (List.mem_cons_of_mem _ hx))
      (addDigit_step_cap d (hds d (List.mem_cons_self d ds)) s hinv)

/-- Auxiliary: a digit press on a numeric-literal last token that already
holds the full nine digits is rejected — it returns `false` — and the
buffer is left literally unchanged. -/
theorem addDigit_overflow_rejected (d l : String) (s : CalcState)
    (hd : d ∈ DIGITS) (hc : s.calculated = false)
    (hl : jsLast s.equation = some l)
    (hshape : numericLiteralShape l)
    (h9 : MAX_DIGITS ≤ digitCount l) :
    (addDigit d s).1 = false ∧ (addDigit d s).2.equation = s.equation := by
  have hd1 : digitCount d = 1 := digitCount_of_mem_DIGITS hd
  have hnotempty := jsLast_not_isEmpty hl
  have hsplit := jsLast_dropLast_concat hl
  have hclass : ¬(isOperator l = true ∨ isModifier l = true ∨
      isBracket l = true ∨ isFunction l = true) := by
    rintro (h | h | h | h)
    · have hm : l = "+" ∨ l = "-" ∨ l = "*" ∨ l = "/" ∨ l = "^" := by
        simpa [isOperator, OPERATORS] using h
      rcases hm with rfl | rfl | rfl | rfl | rfl <;> exact absurd h9 (by decide)
    · have hm : l = "^2" ∨ l = "^3" ∨ l = "^-1" ∨ l = "!" := by
        simpa [isModifier, MODIFIERS] using h
      rcases hm with rfl | rfl | rfl | rfl <;> exact absurd h9 (by decide)
    · have hm : l = ")" ∨ l = "(" := by
        simpa [isBracket] using h
      rcases hm with rfl | rfl <;> exact absurd h9 (by decide)
    · have hm : l = "sqrt(" ∨ l = "sin(" ∨ l = "cos(" ∨ l = "tan(" ∨
          l = "asin(" ∨ l = "acos(" ∨ l = "atan(" ∨ l = "log(" ∨
          l = "log10(" ∨ l = "pow(E," ∨ l = "pow(2," ∨ l = "E" := by
        simpa [isFunction, FUNCTIONS] using h
      rcases hm with rfl | rfl | rfl | rfl | rfl | rfl | rfl | rfl | rfl |
          rfl | rfl | rfl <;> exact absurd h9 (by decide)
  have hcond : ¬((isOperator l = true ∨ isModifier l = true ∨
      isBracket l = true ∨ isFunction l = true) ∧
      (l ≠ "-" ∨ s.equation.length > 1)) := fun hx => hclass hx.1
  rcases hshape with hplain | ⟨inner, rfl, hinner⟩
  · have hnp : ∀ c ∈ l.toList, ¬ c = '(' := by
      intro c hcm hcc
      rcases hplain c hcm with hdig | hdot
      · rw [hcc] at hdig
        exact absurd hdig (by decide)
      · rw [hcc] at hdot
        exact absurd hdot (by decide)
    have hnop : negMatch? l = none := by
      unfold negMatch?
      rw [negMatch_no_paren l.toList hnp]
      rfl
    have hneg : isNegativeComponent l = false := by
      simp [isNegativeComponent, hnop]
    have hlne : ¬ l = "-" := by
      rintro rfl
      exact absurd h9 (by decide)
    have hl0 : ¬ l = "0" := by
      rintro rfl
      exact absurd h9 (by decide)
    have hnd : strStartsWith l "-d" = false := by
      by_contra hq
      simp only [Bool.not_eq_false] at hq
      unfold strStartsWith at hq
      rw [List.isPrefixOf_iff_prefix] at hq
      obtain ⟨t, ht⟩ := hq
      have hmem : '-' ∈ l.toList := by
        rw [← ht]
        simp
      rcases hplain '-' hmem with hdig | hdot
      · exact absurd hdig (by decide)
      · exact absurd hdot (by decide)
    have hcnf : checkNegativeFormat l = l := by
      simp [checkNegativeFormat, hnd]
    have hmcond : ¬(isNegativeComponent l = true ∨ l = "-") := by
      rintro (hx | hx)
      · rw [hneg] at hx
        exact Bool.noConfusion hx
      · exact hlne hx
    have hmt : ∀ x, addDigitMergedToken d l x = l ++ d := by
      intro x
      unfold addDigitMergedToken
      rw [if_neg hmcond, if_neg hl0]
    have hover : ¬ digitCount (addDigitMergedToken d l
        ((negMatch? l).getD
          (if strStartsWith l "-d" then "" else s.dollar2))) ≤
        MAX_DIGITS := by
      rw [hmt, digitCount_append, hd1]
      simp only [MAX_DIGITS] at h9 ⊢
      omega
    simp only [addDigit, hc, Bool.false_eq_true, if_false]
    rw [hl]
    dsimp only
    rw [if_neg hcond, if_neg hover]
    refine ⟨rfl, ?_⟩
    simp only [pushLog, replaceLastComponent, hnotempty,
      Bool.false_eq_true, if_false, hcnf, hsplit]
  · have hinnerNoClose : ∀ c ∈ inner.toList, ¬ c = ')' := by
      intro c hcm hcc
      rcases hinner c hcm with hdig | hdot
      · rw [hcc] at hdig
        exact absurd hdig (by decide)
      · rw [hcc] at hdot
        exact absurd hdot (by decide)
    have hw : negMatch? ("(-" ++ inner ++ ")") = some inner :=
      negMatch?_wrapped inner hinnerNoClose
    have hdcw : digitCount ("(-" ++ inner ++ ")") = digitCount inner := by
      rw [digitCount_append, digitCount_append,
        show digitCount "(-" = 0 from rfl, show digitCount ")" = 0 from rfl]
      omega
    rw [hdcw] at h9
    have hinner0 : ¬ inner = "0" := by
      rintro rfl
      exact absurd h9 (by decide)
    have hnd : strStartsWith ("(-" ++ inner ++ ")") "-d" = false := by
      unfold strStartsWith
      rw [show ("(-" ++ inner ++ ")").toList
          = '(' :: '-' :: (inner.toList ++ ')' :: []) from rfl]
      rfl
    have hcnf : checkNegativeFormat ("(-" ++ inner ++ ")")
        = "(-" ++ inner ++ ")" := by
      simp [checkNegativeFormat, hnd]
    have hnegT : isNegativeComponent ("(-" ++ inner ++ ")") = true := by
      unfold isNegativeComponent
      rw [hw]
      rfl
    have hmt : addDigitMergedToken d ("(-" ++ inner ++ ")")
        ((negMatch? ("(-" ++ inner ++ ")")).getD
          (if strStartsWith ("(-" ++ inner ++ ")") "-d" then ""
           else s.dollar2))
        = "(-" ++ inner ++ d ++ ")" := by
      rw [hw]
      unfold addDigitMergedToken
      rw [if_pos (Or.inl hnegT), Option.getD_some, if_neg hinner0]
    have hover : ¬ digitCount (addDigitMergedToken d ("(-" ++ inner ++ ")")
        ((negMatch? ("(-" ++ inner ++ ")")).getD
          (if strStartsWith ("(-" ++ inner ++ ")") "-d" then ""
           else s.dollar2))) ≤ MAX_DIGITS := by
      rw [hmt, digitCount_append, digitCount_append, digitCount_append,
        show digitCount "(-" = 0 from rfl, show digitCount ")" = 0 from rfl,
        hd1]
      simp only [MAX_DIGITS] at h9 ⊢
      omega
    simp only [addDigit, hc, Bool.false_eq_true, if_false]
    rw [hl]
    dsimp only
    rw [if_neg hcond, if_neg hover]
    refine ⟨rfl, ?_⟩
    simp only [pushLog, replaceLastComponent, hnotempty,
      Bool.false_eq_true, if_false, hcnf, hsplit]

/-- Claim C2: starting from a state whose tokens respect the 9-digit cap,
(a) any sequence of digit presses keeps every token's digit count at or
below 9; (b) any single `addDigit` call that returns `false` leaves every
token's digit characters unchanged; and (c) a digit press whose target is
a numeric-literal last token (plain or parenthesized-negative) already
holding the full nine digits — the press that would create a 10th digit —
returns `false` and leaves the buffer literally unchanged. -/
theorem addDigit_nine_digit_cap (s : CalcState) (ds : List String)
    (d : String) (hds : ∀ x ∈ ds, x ∈ DIGITS) (hd : d ∈ DIGITS)
    (hinv : ∀ t ∈ s.equation, digitCount t ≤ MAX_DIGITS) :
    (∀ t ∈ (applyDigits ds s).equation, digitCount t ≤ MAX_DIGITS) ∧
    ((addDigit d s).1 = false →
      (addDigit d s).2.equation.map (fun t => t.toList.filter Char.isDigit) =
        s.equation.map (fun t => t.toList.filter Char.isDigit)) ∧
    (∀ l, s.calculated = false → jsLast s.equation = some l →
      numericLiteralShape l → MAX_DIGITS ≤ digitCount l →
      (addDigit d s).1 = false ∧ (addDigit d s).2.equation = s.equation) :=
  ⟨applyDigits_cap ds s hds hinv,
   fun h => addDigit_false_digit_profile d s h,
   fun l hc hl hshape h9 => addDigit_overflow_rejected d l s hd hc hl
     hshape h9⟩

/-- Claim C2 (witness): the theorem applied to two digit presses from the
fresh state, and to the rejected tenth digit on the 9-digit literal
`"123456789"`, which leaves the buffer unchanged. -/
theorem addDigit_nine_digit_cap_witness :
    (∀ t ∈ (applyDigits ["1", "2"] initState).equation,
      digitCount t ≤ MAX_DIGITS) ∧
    (addDigit "0" ⟨["123456789"], false, "", [[]], ""⟩).1 = false ∧
    (addDigit "0" ⟨["123456789"], false, "", [[]], ""⟩).2.equation =
      ["123456789"] :=
  ⟨(addDigit_nine_digit_cap initState ["1", "2"] "3" (by decide) (by decide)
      (by decide)).1,
   (addDigit_nine_digit_cap ⟨["123456789"], false, "", [[]], ""⟩ [] "0"
      (by decide) (by decide) (by decide)).2.2 "123456789" (by decide)
      (by decide) (Or.inl (by decide)) (by decide)⟩

/-- Auxiliary: the first index satisfying `p` after a miss-free prefix. -/
theorem findIdx?_first_hit (p : Char → Bool) (a : List Char) (x : Char)
    (b : List Char) (ha : ∀ c ∈ a, p c = false) (hx : p x = true) :
    (a ++ x :: b).findIdx? p = some a.length := by
  induction a with
  | nil => simp [List.findIdx?_cons, hx]
  | cons c cs ih =>
    have h1 := ha c (List.mem_cons_self c cs)
    have h2 := ih (fun y hy => ha y (List.mem_cons_of_mem _ hy))
    simp [List.findIdx?_cons, h1, h2]

/-- Auxiliary: `takeWhile` stops exactly at the first failing element. -/
theorem takeWhile_until (p : Char → Bool) (a : List Char) (x : Char)
    (b : List Char) (ha : ∀ c ∈ a, p c = true) (hx : p x = false) :
    (a ++ x :: b).takeWhile p = a := by
  induction a with
  | nil => simp [List.takeWhile_cons, hx]
  | cons c cs ih =>
    have h1 := ha c (List.mem_cons_self c cs)
    have h2 := ih (fun y hy => ha y (List.mem_cons_of_mem _ hy))
    simp [List.takeWhile_cons, h1, h2]

/-- Auxiliary: `parseInt` on a non-empty run of digit characters returns
their decimal value. -/
theorem parseIntPrefix_digits (l : List Char) (hne : l ≠ [])
    (hd : ∀ c ∈ l, c.isDigit = true) :
    parseIntPrefix l =
      some (l.foldl (fun a c => a * 10 + (c.toNat - 48)) 0) := by
  unfold parseIntPrefix
  have h1 : l.takeWhile Char.isDigit = l := List.takeWhile_eq_self_iff.mpr hd
  rw [h1]
  simp [hne]

/-- Claim C8 (amended): on a fixed-notation rendering
`[-]<integer digits>.<fraction digits>`, the mantissa-rounding increment
of `formatValue` fires exactly when the rendered index of the decimal
point — the integer-part digit count PLUS one for a leading minus sign —
reaches the 9-digit budget and the first two fractional digits parse to
at least 95; a negative value with an 8-digit integer part therefore
already qualifies although its integer-part digit count is below the
budget. -/
theorem mantissaRoundUp_characterization (neg : Bool) (ds fs : List Char)
    (_hds : ds ≠ []) (hfs : fs ≠ [])
    (hdsd : ∀ c ∈ ds, c.isDigit = true)
    (hfsd : ∀ c ∈ fs, c.isDigit = true)
    (t : String)
    (ht : t = String.mk ((if neg then ['-'] else []) ++ ds ++ '.' :: fs)) :
    (mantissaRoundUp t = true ↔
      (MAX_DIGITS ≤ ds.length + (if neg then 1 else 0) ∧
       95 ≤ (fs.take 2).foldl (fun a c => a * 10 + (c.toNat - 48)) 0)) ∧
    intPartDigitCount t = ds.length := by
  have htl : t.toList = ((if neg then ['-'] else []) ++ ds) ++ '.' :: fs := by
    rw [ht]
    rfl
  have hpre : ∀ c ∈ (if neg then ['-'] else []) ++ ds,
      decide (c = '.') = false := by
    intro c hc
    rcases List.mem_append.mp hc with h | h
    · cases neg
      · simp at h
      · simp at h
        subst h
        decide
    · have hdig := hdsd c h
      simp only [decide_eq_false_iff_not]
      intro hcc
      subst hcc
      exact absurd hdig (by decide)
  have hidx : t.toList.findIdx? (fun c => decide (c = '.')) =
      some (((if neg then ['-'] else []) ++ ds).length) := by
    rw [htl]
    exact findIdx?_first_hit _ _ '.' fs hpre (by decide)
  have hlen : ((if neg then ['-'] else []) ++ ds).length =
      ds.length + (if neg then 1 else 0) := by
    cases neg <;> simp [List.length_append]
  have hdrop : t.toList.drop
      (((if neg then ['-'] else []) ++ ds).length + 1) = fs := by
    rw [htl]
    rw [show ('.' :: fs : List Char) = ['.'] ++ fs from rfl,
      ← List.append_assoc]
    rw [show ((if neg then ['-'] else []) ++ ds).length + 1 =
      (((if neg then ['-'] else []) ++ ds) ++ ['.']).length from by
        simp only [List.length_append, List.length_cons, List.length_nil]]
    exact List.drop_left _ _
  have htake2ne : fs.take 2 ≠ [] := by
    cases fs with
    | nil => exact absurd rfl hfs
    | cons a t2 => simp
  have htake2d : ∀ c ∈ fs.take 2, c.isDigit = true :=
    fun c hc => hfsd c (List.mem_of_mem_take hc)
  constructor
  · unfold mantissaRoundUp
    rw [hidx]
    dsimp only
    rw [hdrop, hlen, parseIntPrefix_digits _ htake2ne htake2d]
    by_cases hA : MAX_DIGITS ≤ ds.length + (if neg then 1 else 0)
    · simp [hA, ge_iff_le]
    · simp [hA, ge_iff_le]
  · unfold intPartDigitCount
    rw [htl]
    have hpw : ∀ c ∈ (if neg then ['-'] else []) ++ ds,
        decide (¬ c = '.') = true := by
      intro c hc
      simp only [decide_not, hpre c hc, Bool.not_false]
    rw [show ((((if neg then ['-'] else []) ++ ds) ++ '.' :: fs) :
        List Char).takeWhile (fun c => decide (¬ c = '.')) =
      (if neg then ['-'] else []) ++ ds from
      takeWhile_until _ _ '.' fs hpw (by decide)]
    rw [List.filter_append]
    cases neg
    · simp [List.filter_eq_self.mpr hdsd]
    · simp only [if_true]
      rw [show (['-'] : List Char).filter Char.isDigit = [] from by decide]
      simp [List.filter_eq_self.mpr hdsd]

/-- Claim C8 (witness): the amended characterization applied to the
positive rendering `"123456789.95"` (9 integer digits, fraction `95`). -/
theorem mantissaRoundUp_characterization_witness :
    (mantissaRoundUp "123456789.95" = true ↔
      (MAX_DIGITS ≤
        (['1', '2', '3', '4', '5', '6', '7', '8', '9'] : List Char).length +
          (if false then 1 else 0) ∧
       95 ≤ ((['9', '5'] : List Char).take 2).foldl
          (fun a c => a * 10 + (c.toNat - 48)) 0)) ∧
    intPartDigitCount "123456789.95" =
      (['1', '2', '3', '4', '5', '6', '7', '8', '9'] : List Char).length :=
  mantissaRoundUp_characterization false
    ['1', '2', '3', '4', '5', '6', '7', '8', '9'] ['9', '5']
    (by decide) (by decide) (by decide) (by decide) "123456789.95"
    (by decide)

/-- Claim C8 (counterexample): the rendering of the finite value
`-12345678.96` has only 8 integer-part digits — below the 9-digit
budget, so the claim says no increment — yet `formatValue`'s decision
fires, because `indexOf('.')` counts the leading minus sign. -/
theorem mantissaRoundUp_negative_counterexample :
    mantissaRoundUp "-12345678.96" = true ∧
    intPartDigitCount "-12345678.96" < MAX_DIGITS := by
  decide

end Calculator
